import Mathlib

/-!
# Shallow embedding of the TFC_Doxa membership / role data-access layer

The repository is a church-community web application whose persistent
state lives in a document store with collections `users`, `families`,
`posts`, `notifications`, `familyRequests` and `adminRequests`.  The
data-access wrapper functions (`src/lib/firestore.ts`) read a document,
transform it, and write fields back; documents created with `addDoc`
receive a store-generated fresh id.

We model the store as association lists from (string) document ids to
document records, with first-match lookup and first-match update — this
matches the store's unique-id semantics while keeping every operation
executable.  Fresh `addDoc` ids are drawn from a counter threaded
through the state.  Timestamp-valued fields (`serverTimestamp()`,
`Date.now()`) are modelled as `Nat` arguments passed to the operations
that write them; timestamp fields that no verified operation ever reads
(`createdAt`/`updatedAt` on users and families) are omitted from the
document records, as are fields no claim or operation touches
(e.g. `imageUrl`).  Fallible operations (the source `throw`s on a
missing document) return `Except String`.
-/

namespace TFC

/-- First-match lookup in an association list (document `get` by id). -/
def alookup {α : Type} : List (String × α) → String → Option α
  | [], _ => none
  | (k, v) :: rest, key => if k = key then some v else alookup rest key

/-- Replace the value at the first occurrence of a key; unchanged when the
key is absent (the store's `updateDoc` refuses to create documents, so all
callers pair this with an existence check or a caught failure). -/
def aset {α : Type} : List (String × α) → String → α → List (String × α)
  | [], _, _ => []
  | (k, v) :: rest, key, val =>
      if k = key then (key, val) :: rest else (k, v) :: aset rest key val

/-- Apply `f` to the document at `key` when present; no-op when absent.
This models an `updateDoc` whose failure is caught and only logged. -/
def aupd {α : Type} (l : List (String × α)) (key : String) (f : α → α) :
    List (String × α) :=
  match alookup l key with
  | some v => aset l key (f v)
  | none => l

/-- Remove a document by id (`deleteDoc`). -/
def adel {α : Type} (l : List (String × α)) (key : String) :
    List (String × α) :=
  l.filter (fun kv => kv.1 ≠ key)

/-- `setDoc` with merge on a fully-specified payload: overwrite when the
id exists, append otherwise. -/
def aput {α : Type} (l : List (String × α)) (key : String) (v : α) :
    List (String × α) :=
  if (alookup l key).isSome then aset l key v else l ++ [(key, v)]

/-- Store-generated id for the `n`-th `addDoc` call. -/
def freshId (n : Nat) : String := "auto_" ++ toString n

/-! ## Document records (from `src/types.ts`) -/

inductive Role
  | member
  | admin
  | super_admin
deriving DecidableEq, Repr

inductive PostType
  | announcement
  | discussion
  | prayerRequest
deriving DecidableEq, Repr

inductive NotifType
  | announcement
  | media
  | general
deriving DecidableEq, Repr

inductive ReqStatus
  | pending
  | approved
  | rejected
deriving DecidableEq, Repr

/-- The decision argument of `reviewAdminRequest` (`'approved' | 'rejected'`). -/
inductive Decision
  | approved
  | rejected
deriving DecidableEq, Repr

structure UserDoc where
  email : String
  displayName : String
  role : Role
  phoneNumber : String
  familyId : Option String
deriving DecidableEq, Repr

/-- A document of the `families` collection.  `createFamily` spreads its
payload verbatim, so a family created from a raw `FamilyRequest` carries a
`familyName` field rather than a `name` field; both are therefore optional
here.  `memberCount` is the denormalized counter. -/
structure FamilyDoc where
  name : Option String
  familyName : Option String
  description : Option String
  memberCount : Int
deriving DecidableEq, Repr

structure CommentDoc where
  id : String
  authorId : String
  authorName : String
  content : String
  createdAt : Nat
deriving DecidableEq, Repr

structure PostDoc where
  familyId : String
  authorId : String
  authorName : String
  content : String
  type : PostType
  createdAt : Nat
  likes : List String
  comments : List CommentDoc
deriving DecidableEq, Repr

structure NotificationDoc where
  familyId : String
  title : String
  message : String
  type : NotifType
  isRead : Bool
  createdBy : String
deriving DecidableEq, Repr

structure FamilyRequestDoc where
  requesterId : String
  requesterName : String
  familyName : String
  description : String
  status : ReqStatus
  reviewedAt : Option Nat
deriving DecidableEq, Repr

structure AdminRequestDoc where
  userId : String
  email : String
  displayName : String
  phoneNumber : String
  status : ReqStatus
  reviewedAt : Option Nat
  reviewedBy : Option String
deriving DecidableEq, Repr

/-- The whole persistent state: one association list per collection, plus
the fresh-id counter for `addDoc`. -/
structure DB where
  users : List (String × UserDoc)
  families : List (String × FamilyDoc)
  posts : List (String × PostDoc)
  notifications : List (String × NotificationDoc)
  familyRequests : List (String × FamilyRequestDoc)
  adminRequests : List (String × AdminRequestDoc)
  nextId : Nat
deriving DecidableEq, Repr

/-! ## Operations (from `src/lib/firestore.ts`) -/

/-- `createNotification` (`addDoc` into `notifications`). -/
def createNotification (db : DB) (notif : NotificationDoc) : DB :=
  { db with
    notifications := db.notifications ++ [(freshId db.nextId, notif)]
    nextId := db.nextId + 1 }

/-- The body of `updateUserFamily` after the user-existence check.
`prevFamilyId && prevFamilyId !== newFamilyId` is string truthiness (non-null
and non-empty) plus strict inequality, likewise for the new-family guard. -/
def updateUserFamilyGo (db : DB) (userId : String) (newFamilyId : Option String)
    (u : UserDoc) : DB :=
  let prevFamilyId := u.familyId
  let db1 : DB :=
    { db with users := aset db.users userId { u with familyId := newFamilyId } }
  let db2 : DB :=
    match prevFamilyId with
    | some p =>
        if p ≠ "" ∧ some p ≠ newFamilyId then
          { db1 with
            families := aupd db1.families p
              (fun f => { f with memberCount := f.memberCount - 1 }) }
        else db1
    | none => db1
  match newFamilyId with
  | some n =>
      if n ≠ "" ∧ prevFamilyId ≠ some n then
        createNotification
          { db2 with
            families := aupd db2.families n
              (fun f => { f with memberCount := f.memberCount + 1 }) }
          { familyId := n, title := "New Member",
            message := "A new member has joined the family!",
            type := NotifType.general, isRead := false, createdBy := userId }
      else db2
  | none => db2

/-- `updateUserFamily(userId, newFamilyId)`: throws `'User not found'` when
the user document is missing, otherwise reassigns the user's `familyId` and
maintains both families' `memberCount` counters (each counter update is
wrapped in try/catch, so a missing family document is a silent no-op). -/
def updateUserFamily (db : DB) (userId : String) (newFamilyId : Option String) :
    Except String DB :=
  match alookup db.users userId with
  | none => Except.error "User not found"
  | some u => Except.ok (updateUserFamilyGo db userId newFamilyId u)

/-- `removeMemberFromFamily(userId)` = `updateUserFamily(userId, null)`. -/
def removeMemberFromFamily (db : DB) (userId : String) : Except String DB :=
  updateUserFamily db userId none

/-- `deleteUser(userId)`: decrement the user's family counter when
`u?.familyId` is truthy (present and non-empty), then delete the user
document.  A missing user or family makes the respective step a no-op. -/
def deleteUser (db : DB) (userId : String) : DB :=
  let db1 : DB :=
    match alookup db.users userId with
    | some u =>
        match u.familyId with
        | some f =>
            if f ≠ "" then
              { db with
                families := aupd db.families f
                  (fun fam => { fam with memberCount := fam.memberCount - 1 }) }
            else db
        | none => db
    | none => db
  { db1 with users := adel db1.users userId }

/-- `promoteToAdmin(userId)`: unconditionally set `role: 'admin'` (the
underlying `updateDoc` rejects when the user document is missing). -/
def promoteToAdmin (db : DB) (userId : String) : Except String DB :=
  match alookup db.users userId with
  | none => Except.error "User not found"
  | some u =>
      Except.ok { db with users := aset db.users userId { u with role := Role.admin } }

/-- `demoteFromAdmin(userId)`: unconditionally set `role: 'member'`. -/
def demoteFromAdmin (db : DB) (userId : String) : Except String DB :=
  match alookup db.users userId with
  | none => Except.error "User not found"
  | some u =>
      Except.ok { db with users := aset db.users userId { u with role := Role.member } }

/-- The `Partial<User>` argument of `createUserProfile`.  An outer `none`
means the property is absent (JS `undefined`, replaced by the source's `??`
defaults); for `familyId` the inner option distinguishes an explicit `null`
from a string value, since `'' `(empty string) passes through `?? null`
unchanged. -/
structure ProfileData where
  email : Option String
  displayName : Option String
  role : Option Role
  phoneNumber : Option String
  familyId : Option (Option String)
deriving DecidableEq, Repr

/-- `createUserProfile(userId, userData)`: build the defaulted payload,
`setDoc` it with merge, and — when the resulting `familyId` is truthy —
increment that family's `memberCount` and emit a `general` join
notification whose message uses `displayName || email`. -/
def createUserProfile (db : DB) (userId : String) (userData : ProfileData) : DB :=
  let payload : UserDoc :=
    { email := userData.email.getD ""
      displayName := userData.displayName.getD ""
      role := userData.role.getD Role.member
      phoneNumber := userData.phoneNumber.getD ""
      familyId := userData.familyId.getD none }
  let db1 : DB := { db with users := aput db.users userId payload }
  match payload.familyId with
  | some f =>
      if f ≠ "" then
        createNotification
          { db1 with
            families := aupd db1.families f
              (fun fam => { fam with memberCount := fam.memberCount + 1 }) }
          { familyId := f, title := "New Member",
            message :=
              (if payload.displayName ≠ "" then payload.displayName else payload.email)
                ++ " joined the family",
            type := NotifType.general, isRead := false, createdBy := userId }
      else db1
  | none => db1

/-- The `signup` flow of `src/contexts/AuthContext.tsx`: after account
creation it calls `createUserProfile` with `familyId: ''` (the "will be set
when user selects family" placeholder) and role `'admin'` or `'member'`. -/
def signup (db : DB) (uid email displayName : String) (isAdmin : Bool) : DB :=
  createUserProfile db uid
    { email := some email
      displayName := some displayName
      familyId := some (some "")
      role := some (if isAdmin then Role.admin else Role.member)
      phoneNumber := none }

/-- The body of `likePost` after the post-existence check.  The returned
`Bool` records whether an `updateDoc` write was issued (the source skips
the write when the user already liked the post). -/
def likePostGo (db : DB) (postId userId : String) (p : PostDoc) : DB × Bool :=
  if userId ∈ p.likes then (db, false)
  else
    ({ db with posts := aset db.posts postId { p with likes := p.likes ++ [userId] } },
     true)

/-- `likePost(postId, userId)`: add-if-absent on the `likes` array. -/
def likePost (db : DB) (postId userId : String) : Except String (DB × Bool) :=
  match alookup db.posts postId with
  | none => Except.error "Post not found"
  | some p => Except.ok (likePostGo db postId userId p)

/-- The body of `unlikePost`: filter the user out of `likes` and always
write the result back (hence the `true` write flag). -/
def unlikePostGo (db : DB) (postId userId : String) (p : PostDoc) : DB × Bool :=
  ({ db with
     posts := aset db.posts postId
       { p with likes := p.likes.filter (fun uid => uid != userId) } },
   true)

/-- `unlikePost(postId, userId)`. -/
def unlikePost (db : DB) (postId userId : String) : Except String (DB × Bool) :=
  match alookup db.posts postId with
  | none => Except.error "Post not found"
  | some p => Except.ok (unlikePostGo db postId userId p)

/-- The comment fields supplied by the caller of `addComment`
(`Omit<Comment, 'id' | 'createdAt'>`). -/
structure CommentData where
  authorId : String
  authorName : String
  content : String
deriving DecidableEq, Repr

/-- `addComment(postId, comment)`: append a comment whose id is the string
rendering of `Date.now()` (the `now` argument), so two comments created in
the same millisecond collide. -/
def addComment (db : DB) (postId : String) (c : CommentData) (now : Nat) :
    Except String DB :=
  match alookup db.posts postId with
  | none => Except.error "Post not found"
  | some p =>
      let newComment : CommentDoc :=
        { id := toString now, authorId := c.authorId, authorName := c.authorName,
          content := c.content, createdAt := now }
      Except.ok
        { db with posts := aset db.posts postId { p with comments := p.comments ++ [newComment] } }

/-- `deleteComment(postId, commentId)`: keep exactly the comments whose id
differs from `commentId`. -/
def deleteComment (db : DB) (postId commentId : String) : Except String DB :=
  match alookup db.posts postId with
  | none => Except.error "Post not found"
  | some p =>
      Except.ok
        { db with
          posts := aset db.posts postId
            { p with comments := p.comments.filter (fun c => c.id != commentId) } }

/-- The payload of `createFamily`.  An outer `none` is an absent property;
`memberCount` defaults to `0` via `?? 0`.  Fields of a raw spread payload
that no operation or claim reads are omitted from `FamilyDoc`. -/
structure FamilyPayload where
  id : Option String
  name : Option String
  familyName : Option String
  description : Option String
  memberCount : Option Int
deriving DecidableEq, Repr

/-- The family document written by `createFamily` for a fresh id. -/
def payloadDoc (data : FamilyPayload) : FamilyDoc :=
  { name := data.name, familyName := data.familyName,
    description := data.description, memberCount := data.memberCount.getD 0 }

/-- `setDoc`-with-merge semantics: absent payload properties keep the old
value, present ones overwrite; `memberCount` is always written (`?? 0`). -/
def mergeFamily (old : FamilyDoc) (data : FamilyPayload) : FamilyDoc :=
  { name := data.name.orElse (fun _ => old.name)
    familyName := data.familyName.orElse (fun _ => old.familyName)
    description := data.description.orElse (fun _ => old.description)
    memberCount := data.memberCount.getD 0 }

/-- `createFamily(data)`: `setDoc` with merge at a caller-supplied id, or
`addDoc` at a fresh id.  Returns the id of the written document. -/
def createFamily (db : DB) (data : FamilyPayload) : DB × String :=
  match data.id with
  | some id =>
      match alookup db.families id with
      | some old => ({ db with families := aset db.families id (mergeFamily old data) }, id)
      | none => ({ db with families := db.families ++ [(id, payloadDoc data)] }, id)
  | none =>
      ({ db with
         families := db.families ++ [(freshId db.nextId, payloadDoc data)]
         nextId := db.nextId + 1 },
       freshId db.nextId)

/-- The `FamilyPayload` obtained from a raw `FamilyRequest` document (the
source spreads `reqDoc.data()`, which has `familyName`/`description` but no
`name`, no `id` and no `memberCount` field). -/
def reqPayload (req : FamilyRequestDoc) : FamilyPayload :=
  { id := none, name := none, familyName := some req.familyName,
    description := some req.description, memberCount := none }

/-- `approveFamilyRequest(requestId, familyData?)`: throw when the request
is missing; otherwise mark it `approved` with a review timestamp and call
`createFamily` on the override payload or the raw request data.  The
request's current status is never consulted. -/
def approveFamilyRequest (db : DB) (requestId : String)
    (familyData : Option FamilyPayload) (now : Nat) : Except String DB :=
  match alookup db.familyRequests requestId with
  | none => Except.error "Request not found"
  | some req =>
      let db1 : DB :=
        { db with
          familyRequests := aset db.familyRequests requestId
            { req with status := ReqStatus.approved, reviewedAt := some now } }
      let payload :=
        match familyData with
        | some fd => fd
        | none => reqPayload req
      Except.ok (createFamily db1 payload).1

/-- `rejectFamilyRequest(requestId)` (its `updateDoc` rejects on a missing
request document). -/
def rejectFamilyRequest (db : DB) (requestId : String) (now : Nat) :
    Except String DB :=
  match alookup db.familyRequests requestId with
  | none => Except.error "Request not found"
  | some req =>
      Except.ok
        { db with
          familyRequests := aset db.familyRequests requestId
            { req with status := ReqStatus.rejected, reviewedAt := some now } }

def decisionStatus : Decision → ReqStatus
  | Decision.approved => ReqStatus.approved
  | Decision.rejected => ReqStatus.rejected

/-- `reviewAdminRequest(requestId, status, reviewerId)`: throw when the
request is missing; otherwise record `status`, `reviewedAt`, `reviewedBy`
(whatever the current status is — there is no terminal-state guard) and,
on approval, set the referenced user's role to `admin` (that `updateDoc`
rejects when the user document is missing). -/
def reviewAdminRequest (db : DB) (requestId : String) (status : Decision)
    (reviewerId : String) (now : Nat) : Except String DB :=
  match alookup db.adminRequests requestId with
  | none => Except.error "Admin request not found"
  | some req =>
      let db1 : DB :=
        { db with
          adminRequests := aset db.adminRequests requestId
            { req with
              status := decisionStatus status
              reviewedAt := some now
              reviewedBy := some reviewerId } }
      match status with
      | Decision.approved =>
          match alookup db1.users req.userId with
          | none => Except.error "User not found"
          | some u =>
              Except.ok
                { db1 with users := aset db1.users req.userId { u with role := Role.admin } }
      | Decision.rejected => Except.ok db1

/-- Project the `ok` state out of an `Except`, with a fallback default
(used to phrase closed counterexamples without existential binders). -/
def exceptD (e : Except String DB) (d : DB) : DB :=
  match e with
  | Except.ok x => x
  | Except.error _ => d

/-! ## Association-list lemmas -/

theorem alookup_aset_self {α : Type} (l : List (String × α)) (k : String)
    (v w : α) (h : alookup l k = some v) :
    alookup (aset l k w) k = some w := by
  induction l with
  | nil => simp [alookup] at h
  | cons hd tl ih =>
      obtain ⟨k', v'⟩ := hd
      by_cases hk : k' = k
      · subst hk
        simp [alookup, aset]
      · simp [alookup, aset, hk] at h ⊢
        exact ih h

theorem alookup_aset_ne {α : Type} (l : List (String × α)) (k k' : String)
    (w : α) (h : k' ≠ k) :
    alookup (aset l k w) k' = alookup l k' := by
  induction l with
  | nil => simp [aset]
  | cons hd tl ih =>
      obtain ⟨k₀, v₀⟩ := hd
      by_cases hk : k₀ = k
      · subst hk
        simp [alookup, aset, h, Ne.symm h]
      · simp [alookup, aset, hk]
        by_cases hk' : k₀ = k'
        · simp [hk']
        · simp [hk', ih]

theorem alookup_aupd_self {α : Type} (l : List (String × α)) (k : String)
    (f : α → α) (v : α) (h : alookup l k = some v) :
    alookup (aupd l k f) k = some (f v) := by
  unfold aupd
  rw [h]
  exact alookup_aset_self l k v (f v) h

theorem alookup_aupd_ne {α : Type} (l : List (String × α)) (k k' : String)
    (f : α → α) (h : k' ≠ k) :
    alookup (aupd l k f) k' = alookup l k' := by
  unfold aupd
  cases hl : alookup l k with
  | none => rfl
  | some v => exact alookup_aset_ne l k k' (f v) h

theorem alookup_aupd_exists {α : Type} (l : List (String × α)) (k k' : String)
    (f : α → α) (v : α) (h : alookup l k' = some v) :
    ∃ w, alookup (aupd l k f) k' = some w := by
  by_cases hk : k' = k
  · subst hk
    exact ⟨f v, alookup_aupd_self l k' f v h⟩
  · exact ⟨v, by rw [alookup_aupd_ne l k k' f hk]; exact h⟩

theorem alookup_adel_self {α : Type} (l : List (String × α)) (k : String) :
    alookup (adel l k) k = none := by
  induction l with
  | nil => rfl
  | cons hd tl ih =>
      obtain ⟨k₀, v₀⟩ := hd
      by_cases hk : k₀ = k
      · subst hk
        simpa [adel, alookup] using ih
      · simpa [adel, alookup, hk] using ih

theorem alookup_adel_ne {α : Type} (l : List (String × α)) (k k' : String)
    (h : k' ≠ k) :
    alookup (adel l k) k' = alookup l k' := by
  induction l with
  | nil => rfl
  | cons hd tl ih =>
      obtain ⟨k₀, v₀⟩ := hd
      by_cases hk : k₀ = k
      · subst hk
        have hdrop : adel ((k₀, v₀) :: tl) k₀ = adel tl k₀ := by
          simp [adel, List.filter_cons]
        rw [hdrop, ih]
        simp [alookup, Ne.symm h]
      · have hkeep : adel ((k₀, v₀) :: tl) k = (k₀, v₀) :: adel tl k := by
          simp [adel, List.filter_cons, hk]
        rw [hkeep]
        simp [alookup, ih]

theorem alookup_aput_self {α : Type} (l : List (String × α)) (k : String)
    (v : α) : alookup (aput l k v) k = some v := by
  unfold aput
  cases hl : alookup l k with
  | none =>
      simp only [hl, Option.isSome_none, Bool.false_eq_true, if_false]
      induction l with
      | nil => simp [alookup]
      | cons hd tl ih =>
          obtain ⟨k₀, v₀⟩ := hd
          by_cases hk : k₀ = k
          · simp [alookup, hk] at hl
          · simp [alookup, hk] at hl ⊢
            exact ih hl
  | some w =>
      simp only [hl, Option.isSome_some, if_true]
      exact alookup_aset_self l k w v hl

theorem alookup_aput_ne {α : Type} (l : List (String × α)) (k k' : String)
    (v : α) (h : k' ≠ k) :
    alookup (aput l k v) k' = alookup l k' := by
  unfold aput
  cases hl : alookup l k with
  | none =>
      simp only [hl, Option.isSome_none, Bool.false_eq_true, if_false]
      induction l with
      | nil => simp [alookup, Ne.symm h]
      | cons hd tl ih =>
          obtain ⟨k₀, v₀⟩ := hd
          by_cases hk : k₀ = k
          · simp [alookup, hk] at hl
          · simp [alookup, hk] at hl ⊢
            by_cases hk' : k₀ = k'
            · simp [hk']
            · simp [hk', ih hl]
  | some w =>
      simp only [hl, Option.isSome_some, if_true]
      exact alookup_aset_ne l k k' v h

/-- A list from which an element is absent is unchanged by filtering that
element out. -/
theorem filter_bne_of_not_mem (l : List String) (a : String) (h : a ∉ l) :
    l.filter (fun x => x != a) = l := by
  induction l with
  | nil => rfl
  | cons hd tl ih =>
      simp only [List.mem_cons, not_or] at h
      simp [List.filter_cons, bne_iff_ne, Ne.symm h.1, ih h.2]

theorem alookup_aupd_isSome {α : Type} (l : List (String × α)) (k k' : String)
    (f : α → α) :
    (alookup (aupd l k f) k').isSome = (alookup l k').isSome := by
  by_cases hk : k' = k
  · subst hk
    unfold aupd
    cases hl : alookup l k' with
    | none =>
        dsimp only
        rw [hl]
    | some v =>
        rw [alookup_aset_self l k' v (f v) hl]
        rfl
  · rw [alookup_aupd_ne l k k' f hk]

/-- `updateUserFamilyGo` rewrites exactly the target user's document. -/
theorem go_users (db : DB) (uid : String) (new : Option String) (u : UserDoc) :
    (updateUserFamilyGo db uid new u).users =
      aset db.users uid { u with familyId := new } := by
  unfold updateUserFamilyGo
  cases hp : u.familyId <;> cases new <;> dsimp only <;>
    repeat' first
      | rfl
      | split

/-- When the new family equals the user's current one, `updateUserFamilyGo`
touches nothing but the user document (both counter guards are false). -/
theorem go_same_family (db : DB) (uid F : String) (u : UserDoc)
    (hpf : u.familyId = some F) :
    updateUserFamilyGo db uid (some F) u =
      { db with users := aset db.users uid { u with familyId := some F } } := by
  simp only [updateUserFamilyGo, hpf]
  rw [if_neg (fun hc : (F ≠ "" ∧ some F ≠ some F) => hc.2 rfl)]
  rw [if_neg (fun hc : (F ≠ "" ∧ some F ≠ some F) => hc.2 rfl)]

/-- `updateUserFamilyGo` never creates or deletes family documents. -/
theorem go_families_isSome (db : DB) (uid : String) (new : Option String)
    (u : UserDoc) (k : String) :
    (alookup (updateUserFamilyGo db uid new u).families k).isSome =
      (alookup db.families k).isSome := by
  unfold updateUserFamilyGo
  cases hp : u.familyId <;> cases new <;> dsimp only <;>
    repeat' first
      | rfl
      | rw [alookup_aupd_isSome]
      | rw [show ∀ (d : DB) (n : NotificationDoc),
              (createNotification d n).families = d.families from fun _ _ => rfl]
      | split

/-- Joining a family `F` different from the user's current one leaves
`F`'s document unchanged (when `F` is the empty string) or increments its
`memberCount` by exactly one. -/
theorem go_families_new (db : DB) (uid F : String) (u : UserDoc)
    (fam : FamilyDoc) (hfam : alookup db.families F = some fam)
    (hpf : u.familyId ≠ some F) :
    alookup (updateUserFamilyGo db uid (some F) u).families F = some fam ∨
    alookup (updateUserFamilyGo db uid (some F) u).families F =
      some { fam with memberCount := fam.memberCount + 1 } := by
  unfold updateUserFamilyGo
  cases hp : u.familyId with
  | none =>
      dsimp only
      by_cases hF : F = ""
      · subst hF
        rw [if_neg (fun hc : ("" ≠ "" ∧ (none : Option String) ≠ some "") => hc.1 rfl)]
        exact Or.inl hfam
      · rw [if_pos ⟨hF, fun hc => Option.noConfusion hc⟩]
        right
        simp only [createNotification]
        rw [alookup_aupd_self _ _ _ _ hfam]
  | some p =>
      have hps : (some p : Option String) ≠ some F := fun h => hpf (by rw [hp, h])
      have hpF : p ≠ F := fun h => hps (by rw [h])
      dsimp only
      by_cases hF : F = ""
      · subst hF
        rw [if_neg (fun hc : ("" ≠ "" ∧ (some p : Option String) ≠ some "") => hc.1 rfl)]
        left
        by_cases hdec : p ≠ "" ∧ (some p : Option String) ≠ some ""
        · rw [if_pos hdec]
          show alookup (aupd db.families p _) "" = some fam
          rw [alookup_aupd_ne _ p "" _ (Ne.symm hpF)]
          exact hfam
        · rw [if_neg hdec]
          exact hfam
      · rw [if_pos ⟨hF, hps⟩]
        right
        simp only [createNotification]
        by_cases hdec : p ≠ "" ∧ (some p : Option String) ≠ some F
        · rw [if_pos hdec]
          show alookup (aupd (aupd db.families p _) F _) F = _
          have hstep : alookup (aupd db.families p
              (fun f => { f with memberCount := f.memberCount - 1 })) F = some fam := by
            rw [alookup_aupd_ne _ p F _ (Ne.symm hpF)]
            exact hfam
          rw [alookup_aupd_self _ _ _ _ hstep]
        · rw [if_neg hdec]
          show alookup (aupd db.families F _) F = _
          rw [alookup_aupd_self _ _ _ _ hfam]

/-- Filtering an element out of a list makes it absent. -/
theorem not_mem_filter_bne (l : List String) (a : String) :
    a ∉ l.filter (fun x => x != a) := by
  intro h
  rcases List.mem_filter.mp h with ⟨-, hba⟩
  simp at hba

/-! ## Claim theorems -/

/-- C1: for every user `U` with current `familyId = F1` and every family
`F2 ≠ F1`, `updateUserFamily(U, F2)` (the join-family operation) succeeds,
sets `U.familyId = F2`, decrements `F1.memberCount` by exactly 1,
increments `F2.memberCount` by exactly 1, and creates exactly one
notification, of type `general`, for family `F2`. -/
theorem C1_joinFamily_transfer (db : DB) (uid f1 f2 : String) (u : UserDoc)
    (fam1 fam2 : FamilyDoc)
    (hu : alookup db.users uid = some u) (hprev : u.familyId = some f1)
    (hf1 : alookup db.families f1 = some fam1)
    (hf2 : alookup db.families f2 = some fam2)
    (hne : f1 ≠ f2) (h1 : f1 ≠ "") (h2 : f2 ≠ "") :
    ∃ db', updateUserFamily db uid (some f2) = Except.ok db' ∧
      alookup db'.users uid = some { u with familyId := some f2 } ∧
      alookup db'.families f1 = some { fam1 with memberCount := fam1.memberCount - 1 } ∧
      alookup db'.families f2 = some { fam2 with memberCount := fam2.memberCount + 1 } ∧
      db'.notifications = db.notifications ++
        [(freshId db.nextId,
          { familyId := f2, title := "New Member",
            message := "A new member has joined the family!",
            type := NotifType.general, isRead := false, createdBy := uid })] := by
  have hGo : updateUserFamilyGo db uid (some f2) u =
      createNotification
        { db with
          users := aset db.users uid { u with familyId := some f2 }
          families :=
            aupd (aupd db.families f1
                (fun f => { f with memberCount := f.memberCount - 1 })) f2
              (fun f => { f with memberCount := f.memberCount + 1 }) }
        { familyId := f2, title := "New Member",
          message := "A new member has joined the family!",
          type := NotifType.general, isRead := false, createdBy := uid } := by
    simp only [updateUserFamilyGo, hprev]
    rw [if_pos ⟨h2, fun hc => hne (Option.some.inj hc)⟩,
        if_pos ⟨h1, fun hc => hne (Option.some.inj hc)⟩]
  refine ⟨updateUserFamilyGo db uid (some f2) u, ?_, ?_, ?_, ?_, ?_⟩
  · simp only [updateUserFamily, hu]
  · rw [hGo]
    exact alookup_aset_self db.users uid u _ hu
  · rw [hGo]
    show alookup (aupd (aupd db.families f1 _) f2 _) f1 = _
    rw [alookup_aupd_ne _ f2 f1 _ hne, alookup_aupd_self _ _ _ _ hf1]
  · rw [hGo]
    show alookup (aupd (aupd db.families f1 _) f2 _) f2 = _
    have hf2' : alookup (aupd db.families f1
        (fun f => { f with memberCount := f.memberCount - 1 })) f2 = some fam2 := by
      rw [alookup_aupd_ne _ f1 f2 _ (Ne.symm hne)]
      exact hf2
    rw [alookup_aupd_self _ _ _ _ hf2']
  · rw [hGo]
    rfl

/-- A concrete two-family state used by the C1 witness. -/
def dbJoin : DB :=
  { users := [("u1",
      { email := "a@b", displayName := "Alice", role := Role.member,
        phoneNumber := "", familyId := some "f1" })]
    families :=
      [("f1", { name := some "One", familyName := none,
                description := some "d1", memberCount := 3 }),
       ("f2", { name := some "Two", familyName := none,
                description := some "d2", memberCount := 5 })]
    posts := [], notifications := [], familyRequests := [], adminRequests := []
    nextId := 0 }

/-- Witness for C1 at `dbJoin`: joining family `f2` from `f1` moves the
counts 3 ↦ 2 and 5 ↦ 6 and emits the single join notification. -/
theorem C1_witness :
    ∃ db', updateUserFamily dbJoin "u1" (some "f2") = Except.ok db' ∧
      alookup db'.users "u1" = some
        { email := "a@b", displayName := "Alice", role := Role.member,
          phoneNumber := "", familyId := some "f2" } ∧
      alookup db'.families "f1" = some
        { name := some "One", familyName := none,
          description := some "d1", memberCount := 2 } ∧
      alookup db'.families "f2" = some
        { name := some "Two", familyName := none,
          description := some "d2", memberCount := 6 } ∧
      db'.notifications =
        [(freshId 0,
          { familyId := "f2", title := "New Member",
            message := "A new member has joined the family!",
            type := NotifType.general, isRead := false, createdBy := "u1" })] :=
  C1_joinFamily_transfer dbJoin "u1" "f1" "f2" _ _ _ rfl rfl rfl rfl
    (by decide) (by decide) (by decide)

/-- C4: when the user's current `familyId` already equals `F`,
`updateUserFamily(U, F)` changes no family's `memberCount` and creates no
notification (the whole `families` and `notifications` collections are
untouched); consequently two consecutive `joinFamily(U, F)` calls change
`F`'s `memberCount` by at most 1 in total, never 2. -/
theorem C4_join_idempotent (db : DB) (uid F : String) (u : UserDoc)
    (fam : FamilyDoc)
    (hu : alookup db.users uid = some u)
    (hfam : alookup db.families F = some fam) :
    (u.familyId = some F →
      ∃ db', updateUserFamily db uid (some F) = Except.ok db' ∧
        db'.families = db.families ∧ db'.notifications = db.notifications) ∧
    (∃ db1 db2, updateUserFamily db uid (some F) = Except.ok db1 ∧
      updateUserFamily db1 uid (some F) = Except.ok db2 ∧
      ∃ fam2, alookup db2.families F = some fam2 ∧
        (fam2.memberCount = fam.memberCount ∨
         fam2.memberCount = fam.memberCount + 1)) := by
  constructor
  · intro hpf
    refine ⟨updateUserFamilyGo db uid (some F) u,
      by simp only [updateUserFamily, hu], ?_, ?_⟩
    · rw [go_same_family db uid F u hpf]
    · rw [go_same_family db uid F u hpf]
  · have h1 : updateUserFamily db uid (some F) =
        Except.ok (updateUserFamilyGo db uid (some F) u) := by
      simp only [updateUserFamily, hu]
    have hu1 : alookup (updateUserFamilyGo db uid (some F) u).users uid =
        some { u with familyId := some F } := by
      rw [go_users]
      exact alookup_aset_self db.users uid u _ hu
    have h2 : updateUserFamily (updateUserFamilyGo db uid (some F) u) uid (some F) =
        Except.ok (updateUserFamilyGo (updateUserFamilyGo db uid (some F) u) uid
          (some F) { u with familyId := some F }) := by
      simp only [updateUserFamily, hu1]
    have hsame := go_same_family (updateUserFamilyGo db uid (some F) u) uid F
      { u with familyId := some F } rfl
    refine ⟨_, _, h1, h2, ?_⟩
    by_cases hpf : u.familyId = some F
    · refine ⟨fam, ?_, Or.inl rfl⟩
      rw [hsame]
      show alookup (updateUserFamilyGo db uid (some F) u).families F = some fam
      rw [go_same_family db uid F u hpf]
      exact hfam
    · rcases go_families_new db uid F u fam hfam hpf with hcase | hcase
      · refine ⟨fam, ?_, Or.inl rfl⟩
        rw [hsame]
        show alookup (updateUserFamilyGo db uid (some F) u).families F = some fam
        exact hcase
      · refine ⟨{ fam with memberCount := fam.memberCount + 1 }, ?_, Or.inr rfl⟩
        rw [hsame]
        show alookup (updateUserFamilyGo db uid (some F) u).families F =
          some { fam with memberCount := fam.memberCount + 1 }
        exact hcase

/-- Witness for C4 at `dbJoin` with `F = "f1"` (the family the user is
already in): the no-op half applies and the double-join leaves the count
at 3 or 4 (here in fact 3). -/
theorem C4_witness :
    (({ email := "a@b", displayName := "Alice", role := Role.member,
        phoneNumber := "", familyId := some "f1" } : UserDoc).familyId = some "f1" →
      ∃ db', updateUserFamily dbJoin "u1" (some "f1") = Except.ok db' ∧
        db'.families = dbJoin.families ∧
        db'.notifications = dbJoin.notifications) ∧
    (∃ db1 db2, updateUserFamily dbJoin "u1" (some "f1") = Except.ok db1 ∧
      updateUserFamily db1 "u1" (some "f1") = Except.ok db2 ∧
      ∃ fam2, alookup db2.families "f1" = some fam2 ∧
        (fam2.memberCount = (3 : Int) ∨ fam2.memberCount = (3 : Int) + 1)) :=
  C4_join_idempotent dbJoin "u1" "f1"
    { email := "a@b", displayName := "Alice", role := Role.member,
      phoneNumber := "", familyId := some "f1" }
    { name := some "One", familyName := none,
      description := some "d1", memberCount := 3 }
    rfl rfl

/-- `promoteToAdmin` on an existing user: the updated state spelled out. -/
theorem promote_ok (db : DB) (uid : String) (u : UserDoc)
    (hu : alookup db.users uid = some u) :
    promoteToAdmin db uid = Except.ok
      { db with users := aset db.users uid { u with role := Role.admin } } := by
  simp only [promoteToAdmin, hu]

/-- `demoteFromAdmin` on an existing user: the updated state spelled out. -/
theorem demote_ok (db : DB) (uid : String) (u : UserDoc)
    (hu : alookup db.users uid = some u) :
    demoteFromAdmin db uid = Except.ok
      { db with users := aset db.users uid { u with role := Role.member } } := by
  simp only [demoteFromAdmin, hu]

/-- C6: `promoteToAdmin` sets the role to `admin` for any user document
whatsoever (no admin-limit check appears in its definition) and
`demoteFromAdmin` sets it to `member`; both are idempotent on the role
field, promote-then-demote returns the role to `member`, and demoting a
user who is already a `member` leaves the role at `member`. -/
theorem C6_promote_demote (db : DB) (uid : String) (u : UserDoc)
    (hu : alookup db.users uid = some u) :
    (∃ db1, promoteToAdmin db uid = Except.ok db1 ∧
      (alookup db1.users uid).map UserDoc.role = some Role.admin ∧
      ∃ db2, promoteToAdmin db1 uid = Except.ok db2 ∧
        (alookup db2.users uid).map UserDoc.role = some Role.admin ∧
        ∃ db3, demoteFromAdmin db2 uid = Except.ok db3 ∧
          (alookup db3.users uid).map UserDoc.role = some Role.member ∧
          ∃ db4, demoteFromAdmin db3 uid = Except.ok db4 ∧
            (alookup db4.users uid).map UserDoc.role = some Role.member) ∧
    (u.role = Role.member →
      ∃ db1, demoteFromAdmin db uid = Except.ok db1 ∧
        (alookup db1.users uid).map UserDoc.role = some u.role) := by
  have hu1 : alookup (aset db.users uid { u with role := Role.admin }) uid =
      some { u with role := Role.admin } := alookup_aset_self _ _ _ _ hu
  have hu2 : alookup (aset (aset db.users uid { u with role := Role.admin }) uid
        { u with role := Role.admin }) uid = some { u with role := Role.admin } :=
    alookup_aset_self _ _ _ _ hu1
  have hu3 : alookup (aset (aset (aset db.users uid { u with role := Role.admin })
        uid { u with role := Role.admin }) uid { u with role := Role.member }) uid =
      some { u with role := Role.member } := alookup_aset_self _ _ _ _ hu2
  have hu4 := alookup_aset_self _ uid ({ u with role := Role.member })
    ({ u with role := Role.member }) hu3
  constructor
  · refine ⟨_, promote_ok db uid u hu, ?_, _,
      promote_ok
        ({ db with users := aset db.users uid { u with role := Role.admin } })
        uid ({ u with role := Role.admin }) hu1, ?_, _,
      demote_ok _ uid ({ u with role := Role.admin }) hu2, ?_, _,
      demote_ok _ uid ({ u with role := Role.member }) hu3, ?_⟩
    · dsimp only
      rw [hu1]
      rfl
    · dsimp only
      rw [hu2]
      rfl
    · dsimp only
      rw [hu3]
      rfl
    · dsimp only
      rw [hu4]
      rfl
  · intro hr
    refine ⟨_, demote_ok db uid u hu, ?_⟩
    dsimp only
    rw [alookup_aset_self _ _ _ _ hu, hr]
    rfl

/-- Witness for C6 at `dbJoin` (a `member` user, so the demote-no-op half
is exercised as well). -/
theorem C6_witness :
    (∃ db1, promoteToAdmin dbJoin "u1" = Except.ok db1 ∧
      (alookup db1.users "u1").map UserDoc.role = some Role.admin ∧
      ∃ db2, promoteToAdmin db1 "u1" = Except.ok db2 ∧
        (alookup db2.users "u1").map UserDoc.role = some Role.admin ∧
        ∃ db3, demoteFromAdmin db2 "u1" = Except.ok db3 ∧
          (alookup db3.users "u1").map UserDoc.role = some Role.member ∧
          ∃ db4, demoteFromAdmin db3 "u1" = Except.ok db4 ∧
            (alookup db4.users "u1").map UserDoc.role = some Role.member) ∧
    (({ email := "a@b", displayName := "Alice", role := Role.member,
        phoneNumber := "", familyId := some "f1" } : UserDoc).role = Role.member →
      ∃ db1, demoteFromAdmin dbJoin "u1" = Except.ok db1 ∧
        (alookup db1.users "u1").map UserDoc.role =
          some ({ email := "a@b", displayName := "Alice", role := Role.member,
                  phoneNumber := "", familyId := some "f1" } : UserDoc).role) :=
  C6_promote_demote dbJoin "u1"
    { email := "a@b", displayName := "Alice", role := Role.member,
      phoneNumber := "", familyId := some "f1" } rfl

/-- C7: `deleteUser` on a user whose `familyId` references an existing
family `F` removes the user document entirely and decrements `F`'s
`memberCount` by exactly 1 (all other families untouched); on a user with
no `familyId` it removes the user document and touches no family at all. -/
theorem C7_deleteUser (db : DB) (uid : String) (u : UserDoc)
    (hu : alookup db.users uid = some u) :
    (∀ F fam, u.familyId = some F → F ≠ "" →
      alookup db.families F = some fam →
      alookup (deleteUser db uid).users uid = none ∧
      alookup (deleteUser db uid).families F =
        some { fam with memberCount := fam.memberCount - 1 } ∧
      ∀ k, k ≠ F → alookup (deleteUser db uid).families k = alookup db.families k) ∧
    (u.familyId = none →
      alookup (deleteUser db uid).users uid = none ∧
      (deleteUser db uid).families = db.families) := by
  constructor
  · intro F fam hF hFne hfam
    have hdel : deleteUser db uid =
        { db with
          users := adel db.users uid
          families := aupd db.families F
            (fun f => { f with memberCount := f.memberCount - 1 }) } := by
      unfold deleteUser
      rw [hu]
      dsimp only
      rw [hF]
      dsimp only
      rw [if_pos hFne]
    refine ⟨?_, ?_, ?_⟩
    · rw [hdel]
      exact alookup_adel_self db.users uid
    · rw [hdel]
      show alookup (aupd db.families F _) F = _
      rw [alookup_aupd_self _ _ _ _ hfam]
    · intro k hk
      rw [hdel]
      exact alookup_aupd_ne _ F k _ hk
  · intro hF
    have hdel : deleteUser db uid = { db with users := adel db.users uid } := by
      unfold deleteUser
      rw [hu]
      dsimp only
      rw [hF]
    rw [hdel]
    exact ⟨alookup_adel_self db.users uid, rfl⟩

/-- Witness for C7 at `dbJoin`: deleting the only member of `f1` removes
the user and moves `f1`'s count from 3 to 2. -/
theorem C7_witness :
    (∀ F fam,
      (some "f1" : Option String) = some F → F ≠ "" →
      alookup dbJoin.families F = some fam →
      alookup (deleteUser dbJoin "u1").users "u1" = none ∧
      alookup (deleteUser dbJoin "u1").families F =
        some { fam with memberCount := fam.memberCount - 1 } ∧
      ∀ k, k ≠ F →
        alookup (deleteUser dbJoin "u1").families k = alookup dbJoin.families k) ∧
    ((some "f1" : Option String) = none →
      alookup (deleteUser dbJoin "u1").users "u1" = none ∧
      (deleteUser dbJoin "u1").families = dbJoin.families) :=
  C7_deleteUser dbJoin "u1"
    { email := "a@b", displayName := "Alice", role := Role.member,
      phoneNumber := "", familyId := some "f1" } rfl


/-- C5: for every existing post and user, `likePost` called once or twice
leaves the user in `likes` exactly once (the second call issues no write
and returns the state unchanged); `unlikePost` on a non-liker leaves the
`likes` list unchanged; and after the first removal, two further
consecutive `unlikePost` calls are both no-ops on the likes list.  The
`count ≤ 1` hypothesis reflects that `likes` lists are only ever built by
`createPost` (empty) and the add-if-absent `likePost`. -/
theorem C5_like_unlike (db : DB) (pid uid : String) (p : PostDoc)
    (hp : alookup db.posts pid = some p)
    (hcount : p.likes.count uid ≤ 1) :
    (∃ db1 w1, likePost db pid uid = Except.ok (db1, w1) ∧
      ∃ p1, alookup db1.posts pid = some p1 ∧ p1.likes.count uid = 1 ∧
        likePost db1 pid uid = Except.ok (db1, false)) ∧
    (uid ∉ p.likes →
      ∃ db1, unlikePost db pid uid = Except.ok (db1, true) ∧
        ∃ p1, alookup db1.posts pid = some p1 ∧ p1.likes = p.likes) ∧
    (∃ db1, unlikePost db pid uid = Except.ok (db1, true) ∧
      ∃ p1, alookup db1.posts pid = some p1 ∧ uid ∉ p1.likes ∧
        ∃ db2, unlikePost db1 pid uid = Except.ok (db2, true) ∧
          ∃ p2, alookup db2.posts pid = some p2 ∧ p2.likes = p1.likes ∧
            ∃ db3, unlikePost db2 pid uid = Except.ok (db3, true) ∧
              ∃ p3, alookup db3.posts pid = some p3 ∧ p3.likes = p2.likes) := by
  refine ⟨?_, ?_, ?_⟩
  · by_cases hmem : uid ∈ p.likes
    · have e1 : likePost db pid uid = Except.ok (db, false) := by
        simp only [likePost, hp, likePostGo, if_pos hmem]
      exact ⟨db, false, e1, p, hp,
        Nat.le_antisymm hcount (List.count_pos_iff.mpr hmem), e1⟩
    · have e1 : likePost db pid uid = Except.ok
          ({ db with posts := aset db.posts pid { p with likes := p.likes ++ [uid] } },
           true) := by
        simp only [likePost, hp, likePostGo, if_neg hmem]
      have hp1 : alookup (aset db.posts pid { p with likes := p.likes ++ [uid] }) pid
          = some { p with likes := p.likes ++ [uid] } := alookup_aset_self _ _ _ _ hp
      have hcnt : ({ p with likes := p.likes ++ [uid] } : PostDoc).likes.count uid = 1 := by
        dsimp only
        rw [List.count_append, List.count_eq_zero_of_not_mem hmem,
          List.count_singleton_self]
      have hmem1 : uid ∈ ({ p with likes := p.likes ++ [uid] } : PostDoc).likes := by
        dsimp only
        simp
      have e2 : likePost
          { db with posts := aset db.posts pid { p with likes := p.likes ++ [uid] } }
          pid uid =
          Except.ok
            ({ db with posts := aset db.posts pid { p with likes := p.likes ++ [uid] } },
             false) := by
        simp only [likePost, likePostGo]
        rw [hp1]
        simp only [if_pos hmem1]
      exact ⟨_, true, e1, _, hp1, hcnt, e2⟩
  · intro hmem
    have e1 : unlikePost db pid uid = Except.ok
        ({ db with
           posts := aset db.posts pid
             { p with likes := p.likes.filter (fun x => x != uid) } }, true) := by
      simp only [unlikePost, hp, unlikePostGo]
    refine ⟨_, e1, _, alookup_aset_self _ _ _ _ hp, ?_⟩
    dsimp only
    exact filter_bne_of_not_mem _ _ hmem
  · have e1 : unlikePost db pid uid = Except.ok
        ({ db with
           posts := aset db.posts pid
             { p with likes := p.likes.filter (fun x => x != uid) } }, true) := by
      simp only [unlikePost, hp, unlikePostGo]
    have hp1 : alookup
        (aset db.posts pid { p with likes := p.likes.filter (fun x => x != uid) }) pid
        = some { p with likes := p.likes.filter (fun x => x != uid) } :=
      alookup_aset_self _ _ _ _ hp
    have hnm1 : uid ∉ ({ p with likes := p.likes.filter (fun x => x != uid) } : PostDoc).likes :=
      not_mem_filter_bne p.likes uid
    have hfix : (p.likes.filter (fun x => x != uid)).filter (fun x => x != uid)
        = p.likes.filter (fun x => x != uid) :=
      filter_bne_of_not_mem _ _ (not_mem_filter_bne p.likes uid)
    have e2 : unlikePost
        { db with
          posts := aset db.posts pid
            { p with likes := p.likes.filter (fun x => x != uid) } } pid uid =
        Except.ok
          ({ db with
             posts := aset
               (aset db.posts pid { p with likes := p.likes.filter (fun x => x != uid) })
               pid { p with likes := (p.likes.filter (fun x => x != uid)).filter (fun x => x != uid) } },
           true) := by
      simp only [unlikePost, unlikePostGo]
      rw [hp1]
    have hp2 : alookup
        (aset (aset db.posts pid { p with likes := p.likes.filter (fun x => x != uid) })
          pid { p with likes := (p.likes.filter (fun x => x != uid)).filter (fun x => x != uid) }) pid
        = some { p with likes := (p.likes.filter (fun x => x != uid)).filter (fun x => x != uid) } :=
      alookup_aset_self _ _ _ _ hp1
    have hp2' : alookup
        (aset (aset db.posts pid { p with likes := p.likes.filter (fun x => x != uid) })
          pid { p with likes := (p.likes.filter (fun x => x != uid)).filter (fun x => x != uid) }) pid
        = some { p with likes := p.likes.filter (fun x => x != uid) } := by
      rw [hp2, hfix]
    have e3 : unlikePost
        { db with
          posts := aset
            (aset db.posts pid { p with likes := p.likes.filter (fun x => x != uid) })
            pid { p with likes := (p.likes.filter (fun x => x != uid)).filter (fun x => x != uid) } }
        pid uid =
        Except.ok
          ({ db with
             posts := aset
               (aset (aset db.posts pid { p with likes := p.likes.filter (fun x => x != uid) })
                 pid { p with likes := (p.likes.filter (fun x => x != uid)).filter (fun x => x != uid) })
               pid { p with likes := (p.likes.filter (fun x => x != uid)).filter (fun x => x != uid) } },
           true) := by
      simp only [unlikePost, unlikePostGo]
      rw [hp2']
    refine ⟨_, e1, _, hp1, hnm1, _, e2, _, hp2, ?_, _, e3, _,
      alookup_aset_self _ _ _ _ hp2, ?_⟩
    · dsimp only
      exact hfix
    · dsimp only



/-- A concrete one-post state used by the C5 and C10 witnesses. -/
def dbPost : DB :=
  { users := [], families := []
    posts := [("p1",
      { familyId := "f1", authorId := "u1", authorName := "Alice",
        content := "hello", type := PostType.discussion, createdAt := 10,
        likes := ["u2"], comments := [] })]
    notifications := [], familyRequests := [], adminRequests := []
    nextId := 0 }

/-- The post document stored in `dbPost`. -/
def postP1 : PostDoc :=
  { familyId := "f1", authorId := "u1", authorName := "Alice",
    content := "hello", type := PostType.discussion, createdAt := 10,
    likes := ["u2"], comments := [] }

/-- Witness for C5 at `dbPost` with a user who has not liked the post. -/
theorem C5_witness :
    (∃ db1 w1, likePost dbPost "p1" "u3" = Except.ok (db1, w1) ∧
      ∃ p1, alookup db1.posts "p1" = some p1 ∧ p1.likes.count "u3" = 1 ∧
        likePost db1 "p1" "u3" = Except.ok (db1, false)) ∧
    ("u3" ∉ postP1.likes →
      ∃ db1, unlikePost dbPost "p1" "u3" = Except.ok (db1, true) ∧
        ∃ p1, alookup db1.posts "p1" = some p1 ∧ p1.likes = postP1.likes) ∧
    (∃ db1, unlikePost dbPost "p1" "u3" = Except.ok (db1, true) ∧
      ∃ p1, alookup db1.posts "p1" = some p1 ∧ "u3" ∉ p1.likes ∧
        ∃ db2, unlikePost db1 "p1" "u3" = Except.ok (db2, true) ∧
          ∃ p2, alookup db2.posts "p1" = some p2 ∧ p2.likes = p1.likes ∧
            ∃ db3, unlikePost db2 "p1" "u3" = Except.ok (db3, true) ∧
              ∃ p3, alookup db3.posts "p1" = some p3 ∧ p3.likes = p2.likes) :=
  C5_like_unlike dbPost "p1" "u3" postP1 rfl (by decide)

/-- C10: `likePost` and `unlikePost` succeed on an existing post and
modify only the `likes` field of the target post: every other collection,
every other post, and every other field of the target post is unchanged;
and `unlikePost` always issues the `likes` write (flag `true`) even when
the user was not a liker, whereas `likePost` only writes when the user was
absent. -/
theorem C10_like_unlike_frame (db : DB) (pid uid : String) (p : PostDoc)
    (hp : alookup db.posts pid = some p) :
    (∃ db1 w1, likePost db pid uid = Except.ok (db1, w1) ∧
      db1.users = db.users ∧ db1.families = db.families ∧
      db1.notifications = db.notifications ∧
      db1.familyRequests = db.familyRequests ∧
      db1.adminRequests = db.adminRequests ∧
      (∀ k, k ≠ pid → alookup db1.posts k = alookup db.posts k) ∧
      ∃ p1, alookup db1.posts pid = some p1 ∧
        p1.familyId = p.familyId ∧ p1.authorId = p.authorId ∧
        p1.authorName = p.authorName ∧ p1.content = p.content ∧
        p1.type = p.type ∧ p1.createdAt = p.createdAt ∧
        p1.comments = p.comments) ∧
    (∃ db2, unlikePost db pid uid = Except.ok (db2, true) ∧
      db2.users = db.users ∧ db2.families = db.families ∧
      db2.notifications = db.notifications ∧
      db2.familyRequests = db.familyRequests ∧
      db2.adminRequests = db.adminRequests ∧
      (∀ k, k ≠ pid → alookup db2.posts k = alookup db.posts k) ∧
      ∃ p2, alookup db2.posts pid = some p2 ∧
        p2.familyId = p.familyId ∧ p2.authorId = p.authorId ∧
        p2.authorName = p.authorName ∧ p2.content = p.content ∧
        p2.type = p.type ∧ p2.createdAt = p.createdAt ∧
        p2.comments = p.comments) := by
  constructor
  · by_cases hmem : uid ∈ p.likes
    · have e1 : likePost db pid uid = Except.ok (db, false) := by
        simp only [likePost, hp, likePostGo, if_pos hmem]
      exact ⟨db, false, e1, rfl, rfl, rfl, rfl, rfl, fun k _ => rfl,
        p, hp, rfl, rfl, rfl, rfl, rfl, rfl, rfl⟩
    · have e1 : likePost db pid uid = Except.ok
          ({ db with posts := aset db.posts pid { p with likes := p.likes ++ [uid] } },
           true) := by
        simp only [likePost, hp, likePostGo, if_neg hmem]
      exact ⟨_, true, e1, rfl, rfl, rfl, rfl, rfl,
        fun k hk => alookup_aset_ne db.posts pid k _ hk,
        _, alookup_aset_self _ _ _ _ hp, rfl, rfl, rfl, rfl, rfl, rfl, rfl⟩
  · have e2 : unlikePost db pid uid = Except.ok
        ({ db with
           posts := aset db.posts pid
             { p with likes := p.likes.filter (fun x => x != uid) } }, true) := by
      simp only [unlikePost, hp, unlikePostGo]
    exact ⟨_, e2, rfl, rfl, rfl, rfl, rfl,
      fun k hk => alookup_aset_ne db.posts pid k _ hk,
      _, alookup_aset_self _ _ _ _ hp, rfl, rfl, rfl, rfl, rfl, rfl, rfl⟩

/-- Witness for C10 at `dbPost`. -/
theorem C10_witness :
    (∃ db1 w1, likePost dbPost "p1" "u3" = Except.ok (db1, w1) ∧
      db1.users = dbPost.users ∧ db1.families = dbPost.families ∧
      db1.notifications = dbPost.notifications ∧
      db1.familyRequests = dbPost.familyRequests ∧
      db1.adminRequests = dbPost.adminRequests ∧
      (∀ k, k ≠ "p1" → alookup db1.posts k = alookup dbPost.posts k) ∧
      ∃ p1, alookup db1.posts "p1" = some p1 ∧
        p1.familyId = postP1.familyId ∧ p1.authorId = postP1.authorId ∧
        p1.authorName = postP1.authorName ∧ p1.content = postP1.content ∧
        p1.type = postP1.type ∧ p1.createdAt = postP1.createdAt ∧
        p1.comments = postP1.comments) ∧
    (∃ db2, unlikePost dbPost "p1" "u3" = Except.ok (db2, true) ∧
      db2.users = dbPost.users ∧ db2.families = dbPost.families ∧
      db2.notifications = dbPost.notifications ∧
      db2.familyRequests = dbPost.familyRequests ∧
      db2.adminRequests = dbPost.adminRequests ∧
      (∀ k, k ≠ "p1" → alookup db2.posts k = alookup dbPost.posts k) ∧
      ∃ p2, alookup db2.posts "p1" = some p2 ∧
        p2.familyId = postP1.familyId ∧ p2.authorId = postP1.authorId ∧
        p2.authorName = postP1.authorName ∧ p2.content = postP1.content ∧
        p2.type = postP1.type ∧ p2.createdAt = postP1.createdAt ∧
        p2.comments = postP1.comments) :=
  C10_like_unlike_frame dbPost "p1" "u3" postP1 rfl



/-- C9: `deleteComment(postId, commentId)` succeeds on an existing post and
removes every comment whose id equals `commentId`, keeping all others in
their original relative order; in particular two comments sharing a
(timestamp-generated, collision-prone) id are both removed by one call. -/
theorem C9_deleteComment (db : DB) (pid cid : String) (p : PostDoc)
    (hp : alookup db.posts pid = some p) :
    ∃ db', deleteComment db pid cid = Except.ok db' ∧
      ∃ p', alookup db'.posts pid = some p' ∧
        p'.comments = p.comments.filter (fun c => c.id != cid) ∧
        p'.comments.Sublist p.comments ∧
        (∀ c ∈ p'.comments, c.id ≠ cid) ∧
        (∀ c ∈ p.comments, c.id ≠ cid → c ∈ p'.comments) := by
  have e : deleteComment db pid cid = Except.ok
      { db with
        posts := aset db.posts pid
          { p with comments := p.comments.filter (fun c => c.id != cid) } } := by
    simp only [deleteComment, hp]
  refine ⟨_, e, _, alookup_aset_self _ _ _ _ hp, rfl, ?_, ?_, ?_⟩
  · exact List.filter_sublist p.comments
  · intro c hc
    rcases List.mem_filter.mp hc with ⟨-, h2⟩
    intro hEq
    rw [hEq] at h2
    simp at h2
  · intro c hc hne
    exact List.mem_filter.mpr ⟨hc, bne_iff_ne.mpr hne⟩

/-- A concrete state whose post carries two comments with the colliding id
`"100"` and one with id `"200"`, for the C9 witness. -/
def dbComments : DB :=
  { users := [], families := []
    posts := [("p1",
      { familyId := "f1", authorId := "u1", authorName := "Alice",
        content := "hello", type := PostType.discussion, createdAt := 10,
        likes := []
        comments :=
          [{ id := "100", authorId := "u1", authorName := "A",
             content := "one", createdAt := 100 },
           { id := "100", authorId := "u2", authorName := "B",
             content := "two", createdAt := 100 },
           { id := "200", authorId := "u1", authorName := "A",
             content := "three", createdAt := 200 }] })]
    notifications := [], familyRequests := [], adminRequests := []
    nextId := 0 }

/-- The post document stored in `dbComments`. -/
def postC1 : PostDoc :=
  { familyId := "f1", authorId := "u1", authorName := "Alice",
    content := "hello", type := PostType.discussion, createdAt := 10,
    likes := []
    comments :=
      [{ id := "100", authorId := "u1", authorName := "A",
         content := "one", createdAt := 100 },
       { id := "100", authorId := "u2", authorName := "B",
         content := "two", createdAt := 100 },
       { id := "200", authorId := "u1", authorName := "A",
         content := "three", createdAt := 200 }] }

/-- Witness for C9 at `dbComments` deleting the colliding id `"100"`
(both comments with that id go, the third survives). -/
theorem C9_witness :
    ∃ db', deleteComment dbComments "p1" "100" = Except.ok db' ∧
      ∃ p', alookup db'.posts "p1" = some p' ∧
        p'.comments = postC1.comments.filter (fun c => c.id != "100") ∧
        p'.comments.Sublist postC1.comments ∧
        (∀ c ∈ p'.comments, c.id ≠ "100") ∧
        (∀ c ∈ postC1.comments, c.id ≠ "100" → c ∈ p'.comments) :=
  C9_deleteComment dbComments "p1" "100" postC1 rfl



/-- `approveFamilyRequest` on an existing request with a payload carrying
no explicit family id: the request is re-marked `approved` (whatever its
current status) and one family document is appended at a fresh id. -/
theorem approve_ok (db : DB) (rid : String) (req : FamilyRequestDoc)
    (fd? : Option FamilyPayload) (t : Nat)
    (hreq : alookup db.familyRequests rid = some req)
    (hid : fd?.bind FamilyPayload.id = none) :
    approveFamilyRequest db rid fd? t = Except.ok
      { db with
        familyRequests := (aset db.familyRequests rid
          { req with status := ReqStatus.approved, reviewedAt := some t })
        families := (db.families ++
          [(freshId db.nextId, payloadDoc (fd?.getD (reqPayload req)))])
        nextId := db.nextId + 1 } := by
  cases fd? with
  | none =>
      simp only [approveFamilyRequest, hreq, createFamily, reqPayload,
        Option.getD_none]
  | some fd =>
      have hfd : fd.id = none := by simpa using hid
      simp only [approveFamilyRequest, hreq, createFamily, hfd,
        Option.getD_some]

/-- The pending family request used by the C2 counterexample. -/
def reqR1 : FamilyRequestDoc :=
  { requesterId := "u9", requesterName := "Bob", familyName := "Grace",
    description := "gd", status := ReqStatus.pending, reviewedAt := none }

/-- A state holding only the pending request `r1`. -/
def dbReq : DB :=
  { users := [], families := [], posts := [], notifications := []
    familyRequests := [("r1", reqR1)], adminRequests := [], nextId := 0 }

/-- The state after the first `approveFamilyRequest` on `r1`. -/
def dbReq1 : DB := exceptD (approveFamilyRequest dbReq "r1" none 5) dbReq

/-- C2 counterexample: after the first approval the request `r1` is
already `approved` and one family exists; the claimed behavior is that a
second `approveFamilyRequest` on it fails with an invalid-state-transition
error and creates no further family — instead the second call succeeds and
a second family is created. -/
theorem C2_counterexample :
    (alookup dbReq1.familyRequests "r1").map (fun r => r.status) =
      some ReqStatus.approved ∧
    dbReq1.families.length = 1 ∧
    (approveFamilyRequest dbReq1 "r1" none 6).isOk = true ∧
    (exceptD (approveFamilyRequest dbReq1 "r1" none 6) dbReq1).families.length = 2 := by
  decide

/-- C2 amended: `approveFamilyRequest` on an existing request (whatever
its status) marks it approved with a review timestamp and appends exactly
one new family built from the caller override or the raw request data
(`memberCount` defaulting to 0 when the payload supplies none); a second
call on the then-approved request does not fail — it succeeds and appends
one further family. -/
theorem C2_approve_amended (db : DB) (rid : String) (req : FamilyRequestDoc)
    (fd? : Option FamilyPayload) (t t2 : Nat)
    (hreq : alookup db.familyRequests rid = some req)
    (hid : fd?.bind FamilyPayload.id = none) :
    ∃ db', approveFamilyRequest db rid fd? t = Except.ok db' ∧
      alookup db'.familyRequests rid =
        some { req with status := ReqStatus.approved, reviewedAt := some t } ∧
      db'.families = db.families ++
        [(freshId db.nextId, payloadDoc (fd?.getD (reqPayload req)))] ∧
      (fd?.bind FamilyPayload.memberCount = none →
        (payloadDoc (fd?.getD (reqPayload req))).memberCount = 0) ∧
      ∃ db2, approveFamilyRequest db' rid fd? t2 = Except.ok db2 ∧
        db2.families.length = db.families.length + 2 := by
  refine ⟨_, approve_ok db rid req fd? t hreq hid, ?_, rfl, ?_, ?_⟩
  · dsimp only
    exact alookup_aset_self _ _ _ _ hreq
  · intro hmc
    cases fd? with
    | none => rfl
    | some fd =>
        have : fd.memberCount = none := by simpa using hmc
        simp [payloadDoc, this]
  · have hreq' : alookup
        ({ db with
           familyRequests := (aset db.familyRequests rid
             { req with status := ReqStatus.approved, reviewedAt := some t })
           families := (db.families ++
             [(freshId db.nextId, payloadDoc (fd?.getD (reqPayload req)))])
           nextId := db.nextId + 1 } : DB).familyRequests rid =
        some { req with status := ReqStatus.approved, reviewedAt := some t } := by
      dsimp only
      exact alookup_aset_self _ _ _ _ hreq
    refine ⟨_, approve_ok _ rid _ fd? t2 hreq' hid, ?_⟩
    dsimp only
    rw [List.length_append, List.length_append]
    simp

/-- Witness for the amended C2 at `dbReq` (no override payload). -/
theorem C2_amended_witness :
    ∃ db', approveFamilyRequest dbReq "r1" none 5 = Except.ok db' ∧
      alookup db'.familyRequests "r1" =
        some { reqR1 with status := ReqStatus.approved, reviewedAt := some 5 } ∧
      db'.families = dbReq.families ++
        [(freshId 0, payloadDoc (reqPayload reqR1))] ∧
      ((none : Option FamilyPayload).bind FamilyPayload.memberCount = none →
        (payloadDoc ((none : Option FamilyPayload).getD (reqPayload reqR1))).memberCount = 0) ∧
      ∃ db2, approveFamilyRequest db' "r1" none 6 = Except.ok db2 ∧
        db2.families.length = dbReq.families.length + 2 :=
  C2_approve_amended dbReq "r1" reqR1 none 5 6 rfl rfl



/-- The already-approved admin request used by the C3 counterexample. -/
def reqA1 : AdminRequestDoc :=
  { userId := "u1", email := "e@x", displayName := "Dana", phoneNumber := "1",
    status := ReqStatus.approved, reviewedAt := some 1, reviewedBy := some "sa" }

/-- A state holding an already-approved admin request and its target user. -/
def dbAdmin : DB :=
  { users := [("u1",
      { email := "e@x", displayName := "Dana", role := Role.member,
        phoneNumber := "1", familyId := none })]
    families := [], posts := [], notifications := [], familyRequests := []
    adminRequests := [("a1", reqA1)], nextId := 0 }

/-- C3 counterexample: request `a1` is already terminal (`approved`), yet a
further `reviewAdminRequest` call succeeds (no error) and overwrites the
request's status, review timestamp, and reviewer — the claimed
fail-and-leave-unchanged behavior does not hold. -/
theorem C3_counterexample :
    reqA1.status = ReqStatus.approved ∧
    (reviewAdminRequest dbAdmin "a1" Decision.rejected "sa2" 7).isOk = true ∧
    (alookup (exceptD (reviewAdminRequest dbAdmin "a1" Decision.rejected "sa2" 7)
        dbAdmin).adminRequests "a1").map (fun r => r.status) =
      some ReqStatus.rejected := by
  decide

/-- C3 amended: `reviewAdminRequest` on an existing request — whatever its
current status, including already-terminal ones — succeeds, records
`status`, `reviewedAt` and `reviewedBy` on the request, and when the
decision is `approved` additionally sets the referenced user's role to
`admin`; there is no rejection of re-reviews. -/
theorem C3_review_amended (db : DB) (rid : String) (req : AdminRequestDoc)
    (d : Decision) (rev : String) (t : Nat)
    (hreq : alookup db.adminRequests rid = some req)
    (husr : d = Decision.approved → ∃ u, alookup db.users req.userId = some u) :
    ∃ db', reviewAdminRequest db rid d rev t = Except.ok db' ∧
      alookup db'.adminRequests rid = some
        { req with status := decisionStatus d, reviewedAt := some t,
                   reviewedBy := some rev } ∧
      (d = Decision.approved →
        (alookup db'.users req.userId).map UserDoc.role = some Role.admin) := by
  cases d with
  | rejected =>
      have e : reviewAdminRequest db rid Decision.rejected rev t = Except.ok
          { db with
            adminRequests := aset db.adminRequests rid
              { req with status := decisionStatus Decision.rejected,
                         reviewedAt := some t, reviewedBy := some rev } } := by
        simp only [reviewAdminRequest, hreq]
      refine ⟨_, e, ?_, fun h => nomatch h⟩
      dsimp only
      exact alookup_aset_self _ _ _ _ hreq
  | approved =>
      obtain ⟨u, hu⟩ := husr rfl
      have e : reviewAdminRequest db rid Decision.approved rev t = Except.ok
          { db with
            adminRequests := (aset db.adminRequests rid
              { req with status := decisionStatus Decision.approved,
                         reviewedAt := some t, reviewedBy := some rev })
            users := (aset db.users req.userId { u with role := Role.admin }) } := by
        simp only [reviewAdminRequest, hreq, hu]
      refine ⟨_, e, ?_, fun _ => ?_⟩
      · dsimp only
        exact alookup_aset_self _ _ _ _ hreq
      · dsimp only
        rw [alookup_aset_self _ _ _ _ hu]
        rfl

/-- Witness for the amended C3 at `dbAdmin` with an approving decision
(the request was already terminal, the call still succeeds and promotes
the user). -/
theorem C3_amended_witness :
    ∃ db', reviewAdminRequest dbAdmin "a1" Decision.approved "sa2" 7 =
        Except.ok db' ∧
      alookup db'.adminRequests "a1" = some
        { reqA1 with status := decisionStatus Decision.approved,
                     reviewedAt := some 7, reviewedBy := some "sa2" } ∧
      (Decision.approved = Decision.approved →
        (alookup db'.users reqA1.userId).map UserDoc.role = some Role.admin) :=
  C3_review_amended dbAdmin "a1" reqA1 Decision.approved "sa2" 7 rfl
    (fun _ => ⟨{ email := "e@x", displayName := "Dana", role := Role.member,
                 phoneNumber := "1", familyId := none }, rfl⟩)



/-- The unassigned-or-existing-family predicate on a stored `familyId`,
amended to admit the empty string, which the signup flow stores as its
"no family yet" placeholder. -/
def famOk (fams : List (String × FamilyDoc)) (fid : Option String) : Prop :=
  fid = none ∨ fid = some "" ∨
    ∃ f fam, fid = some f ∧ alookup fams f = some fam

/-- Every stored user satisfies `famOk`. -/
def usersFamOk (db : DB) : Prop :=
  ∀ uid u, alookup db.users uid = some u → famOk db.families u.familyId

/-- `famOk` transfers along any families change preserving key presence. -/
theorem famOk_mono (fams fams' : List (String × FamilyDoc)) (fid : Option String)
    (h : ∀ k, (alookup fams' k).isSome = (alookup fams k).isSome)
    (hok : famOk fams fid) : famOk fams' fid := by
  rcases hok with h1 | h1 | ⟨f, fam, hfid, hf⟩
  · exact Or.inl h1
  · exact Or.inr (Or.inl h1)
  · right
    right
    have hs : (alookup fams' f).isSome = true := by rw [h f, hf]; rfl
    rcases Option.isSome_iff_exists.mp hs with ⟨fam', hfam'⟩
    exact ⟨f, fam', hfid, hfam'⟩

/-- The signup flow normal form: it writes the profile with
`familyId = some ""` (the empty-string placeholder) and, since the empty
string is falsy, performs no counter update and emits no notification. -/
theorem signup_eq (db : DB) (uid e d : String) (a : Bool) :
    signup db uid e d a =
      { db with users := (aput db.users uid
          { email := e, displayName := d,
            role := (if a then Role.admin else Role.member),
            phoneNumber := "", familyId := some "" }) } := rfl

/-- A one-family state with no users, for the C8 counterexample. -/
def dbSignup : DB :=
  { users := []
    families := [("f1", { name := some "One", familyName := none,
                          description := none, memberCount := 0 })]
    posts := [], notifications := [], familyRequests := [], adminRequests := []
    nextId := 0 }

/-- C8 counterexample: a user created through the public signup flow has
stored `familyId = some ""` — not `null` and not a reference to any
existing family (no family has the empty id), so the claimed invariant
fails already in the freshly-signed-up state. -/
theorem C8_counterexample :
    (alookup (signup dbSignup "u1" "a@b" "Alice" false).users "u1").map
        (fun u => u.familyId) = some (some "") ∧
    alookup (signup dbSignup "u1" "a@b" "Alice" false).families "" = none ∧
    ¬ ((alookup (signup dbSignup "u1" "a@b" "Alice" false).users "u1").map
        (fun u => u.familyId) = some none) := by
  decide

/-- C8 amended: with the empty string admitted as a second "unassigned"
marker, the invariant — every stored user's `familyId` is `null`, the
empty string, or a reference to an existing family — is preserved by the
signup flow, by join-family to an existing family, and by
remove-member-from-family. -/
theorem C8_famId_amended (db : DB) (h : usersFamOk db) :
    (∀ uid e d a, usersFamOk (signup db uid e d a)) ∧
    (∀ uid F fam db', alookup db.families F = some fam →
      updateUserFamily db uid (some F) = Except.ok db' → usersFamOk db') ∧
    (∀ uid db', removeMemberFromFamily db uid = Except.ok db' →
      usersFamOk db') := by
  refine ⟨?_, ?_, ?_⟩
  · intro uid e d a uid' u' hu'
    rw [signup_eq] at hu'
    rw [signup_eq]
    dsimp only at hu' ⊢
    by_cases hx : uid' = uid
    · subst hx
      rw [alookup_aput_self] at hu'
      obtain rfl := Option.some.inj hu'
      exact Or.inr (Or.inl rfl)
    · rw [alookup_aput_ne _ _ _ _ hx] at hu'
      exact h uid' u' hu'
  · intro uid F fam db' hfam heq
    cases hu : alookup db.users uid with
    | none =>
        unfold updateUserFamily at heq
        rw [hu] at heq
        exact absurd heq (by simp)
    | some u =>
        have hdb' : db' = updateUserFamilyGo db uid (some F) u := by
          unfold updateUserFamily at heq
          rw [hu] at heq
          exact (Except.ok.inj heq).symm
        subst hdb'
        intro uid' u' hu'
        have hfs : ∀ k,
            (alookup (updateUserFamilyGo db uid (some F) u).families k).isSome =
              (alookup db.families k).isSome :=
          fun k => go_families_isSome db uid (some F) u k
        rw [go_users] at hu'
        by_cases hx : uid' = uid
        · subst hx
          rw [alookup_aset_self _ _ _ _ hu] at hu'
          obtain rfl := Option.some.inj hu'
          right
          right
          have hs := hfs F
          rw [hfam] at hs
          rcases Option.isSome_iff_exists.mp (hs.trans rfl) with ⟨fam', hf'⟩
          exact ⟨F, fam', rfl, hf'⟩
        · rw [alookup_aset_ne _ _ _ _ hx] at hu'
          exact famOk_mono _ _ _ hfs (h uid' u' hu')
  · intro uid db' heq
    cases hu : alookup db.users uid with
    | none =>
        unfold removeMemberFromFamily updateUserFamily at heq
        rw [hu] at heq
        exact absurd heq (by simp)
    | some u =>
        have hdb' : db' = updateUserFamilyGo db uid none u := by
          unfold removeMemberFromFamily updateUserFamily at heq
          rw [hu] at heq
          exact (Except.ok.inj heq).symm
        subst hdb'
        intro uid' u' hu'
        have hfs : ∀ k,
            (alookup (updateUserFamilyGo db uid none u).families k).isSome =
              (alookup db.families k).isSome :=
          fun k => go_families_isSome db uid none u k
        rw [go_users] at hu'
        by_cases hx : uid' = uid
        · subst hx
          rw [alookup_aset_self _ _ _ _ hu] at hu'
          obtain rfl := Option.some.inj hu'
          exact Or.inl rfl
        · rw [alookup_aset_ne _ _ _ _ hx] at hu'
          exact famOk_mono _ _ _ hfs (h uid' u' hu')

/-- Witness for the amended C8 at `dbSignup` (no users, one family, so
the invariant hypothesis holds vacuously). -/
theorem C8_amended_witness :
    (∀ uid e d a, usersFamOk (signup dbSignup uid e d a)) ∧
    (∀ uid F fam db', alookup dbSignup.families F = some fam →
      updateUserFamily dbSignup uid (some F) = Except.ok db' → usersFamOk db') ∧
    (∀ uid db', removeMemberFromFamily dbSignup uid = Except.ok db' →
      usersFamOk db') :=
  C8_famId_amended dbSignup (fun _ _ hu => nomatch hu)


end TFC
